import Mathlib

/-!
Verification of `src/response_parser.py` of Local-Code-Interpreter.

The file incrementally parses streamed chat-completion fragments ("choices"
with a "delta" object), accumulates assistant text and function-call
arguments in a `BotBackend`, and drives a code-execution backend when a
`finish_reason` of `'function_call'` arrives.

The `BotBackend` class, `parse_json`, and `add_function_response_to_bot_history`
live in the repository's `functional` module, which is not part of the given
sources; they are modelled from the spec (marked in their doc comments).
Everything else is a direct shallow embedding of `response_parser.py`.

Python exceptions are modelled with `Except`: an uncaught exception is an
`Except.error` carrying the exception and the backend state at the moment of
the raise (Python mutations performed before the raise persist).
-/

namespace ResponseParser

/-- A history entry: Python `history` is a list of two-element lists
`[user_message, bot_message]` where the first component may be `None`. -/
abbrev HistEntry := Option String × String

/-- The `function_call` sub-object of a delta fragment: each of `name` and
`arguments` may be present or absent. -/
structure FunctionCallDelta where
  name : Option String
  arguments : Option String
deriving DecidableEq

/-- The `delta` object of a choice.  `content` distinguishes an absent key
(`none`) from a present-but-null value (`some none`), because
`ContentChoiceStrategy.support` checks `'content' in delta and
delta['content'] is not None`. -/
structure Delta where
  role : Option String
  content : Option (Option String)
  function_call : Option FunctionCallDelta
deriving DecidableEq

/-- One element of the chunk's `choices` list: a delta plus an optional
`finish_reason`. -/
structure Choice where
  delta : Delta
  finish_reason : Option String
deriving DecidableEq

/-- A streamed chunk, of which only the `choices` list is inspected. -/
structure Chunk where
  choices : List Choice
deriving DecidableEq

/-- Modelled from the spec: messages recorded by the backend that are not
under `src/` (`BotBackend.add_gpt_response_content_message` and
`BotBackend.add_function_call_response_message` live in the missing
`functional` module).  A content message records the assistant role and the
accumulated content; a function-call message records the function name, the
function response text, and the `save_tokens` flag. -/
inductive BackendMessage where
  | contentMsg (assistant_role_name : String) (content : String)
  | functionCallMsg (function_name : String) (function_response : String) (save_tokens : Bool)
deriving DecidableEq

/-- Modelled from the spec: the mutable state of `functional.BotBackend`
(not under `src/`), restricted to the fields that `response_parser.py`
reads and writes.  `calls` is instrumentation recording every invocation of
a backend execution function from `available_functions`, as a pair of the
function name and the code string it was applied to. -/
structure BotBackend where
  assistant_role_name : String
  content : String
  function_name : String
  function_args_str : String
  display_code_block : String
  finish_reason : Option String
  bot_history : List HistEntry
  messages : List BackendMessage
  unique_id : String
  calls : List (String × String)
deriving DecidableEq

/-- Modelled from the spec: the external collaborators that are not under
`src/`: `parse_json` (the JSON completion-detector of the missing
`functional` module, taking the accumulated arguments string and a
`finished` flag and returning the extracted code string or `None`) and the
code-execution backend `available_functions` dictionary, given by its key
set `available` and the behaviour `impl` of each function (returning the
pair `(text_to_gpt, content_to_display)`, or raising an exception whose
message is the `Except.error` payload). -/
structure Env where
  parse_json : String → Bool → Option String
  available : List String
  impl : String → String → Except String (String × String)

/-- A Python exception: `jsonDecode` is the `json.JSONDecodeError` class
that the `except json.JSONDecodeError` handler catches (the embedded code
never actually produces it, see `FinishReasonChoiceStrategy.get_code_str`);
`other` is any other exception rendered by its message string (used for
`TypeError`, `KeyError`, `IndexError` and exceptions raised by backend
functions). -/
inductive PyExn where
  | jsonDecode
  | other (msg : String)
deriving DecidableEq

/-- The `(bot_backend, history, whether_exit)` state threaded through the
strategies. -/
abbrev PState := BotBackend × List HistEntry × Bool

/-- Result of running a strategy: either the updated state, or an uncaught
exception together with the backend state at the raise. -/
abbrev PResult := Except (PyExn × BotBackend) PState

/-- Modelled from the spec: `BotBackend.set_assistant_role_name`. -/
def BotBackend.set_assistant_role_name (bb : BotBackend) (r : String) : BotBackend :=
  { bb with assistant_role_name := r }

/-- Modelled from the spec: `BotBackend.add_content` appends a delta's
content string to the accumulated content. -/
def BotBackend.add_content (bb : BotBackend) (c : String) : BotBackend :=
  { bb with content := bb.content ++ c }

/-- Modelled from the spec: `BotBackend.set_function_name`. -/
def BotBackend.set_function_name (bb : BotBackend) (n : String) : BotBackend :=
  { bb with function_name := n }

/-- Modelled from the spec: `BotBackend.copy_current_bot_history` stores a
deep copy of the current history in the backend. -/
def BotBackend.copy_current_bot_history (bb : BotBackend) (h : List HistEntry) : BotBackend :=
  { bb with bot_history := h }

/-- Modelled from the spec: `BotBackend.add_function_args_str` appends a
delta's arguments string to the accumulated function-arguments string. -/
def BotBackend.add_function_args_str (bb : BotBackend) (s : String) : BotBackend :=
  { bb with function_args_str := bb.function_args_str ++ s }

/-- Modelled from the spec: `BotBackend.update_display_code_block`. -/
def BotBackend.update_display_code_block (bb : BotBackend) (d : String) : BotBackend :=
  { bb with display_code_block := d }

/-- Modelled from the spec: `BotBackend.update_finish_reason`. -/
def BotBackend.update_finish_reason (bb : BotBackend) (fr : Option String) : BotBackend :=
  { bb with finish_reason := fr }

/-- Modelled from the spec: `BotBackend.add_gpt_response_content_message`
records the accumulated content as an assistant message. -/
def BotBackend.add_gpt_response_content_message (bb : BotBackend) : BotBackend :=
  { bb with messages := bb.messages ++ [.contentMsg bb.assistant_role_name bb.content] }

/-- Modelled from the spec: `BotBackend.add_function_call_response_message`
records the function response as a function-call message. -/
def BotBackend.add_function_call_response_message (bb : BotBackend)
    (function_response : String) (save_tokens : Bool) : BotBackend :=
  { bb with messages := bb.messages ++ [.functionCallMsg bb.function_name function_response save_tokens] }

/-- Modelled from the spec: `BotBackend.reset_gpt_response_log_values` with
`exclude=['finish_reason']` resets the per-response accumulated log values
(content, function name, function arguments string, display code block) to
their initial empty values, keeping `finish_reason`. -/
def BotBackend.reset_gpt_response_log_values (bb : BotBackend) : BotBackend :=
  { bb with content := "", function_name := "", function_args_str := "", display_code_block := "" }

/-- Instrumentation: record an invocation of `available_functions[name]` on
`code`. -/
def BotBackend.record_call (bb : BotBackend) (n code : String) : BotBackend :=
  { bb with calls := bb.calls ++ [(n, code)] }

/-- Modelled from the spec: `functional.add_function_response_to_bot_history`
appends the function response (the content to display) to the history. -/
def add_function_response_to_bot_history (content_to_display : String)
    (history : List HistEntry) (_unique_id : String) : List HistEntry :=
  history ++ [(none, content_to_display)]

/-- Python `history[-1][1] = s`: replace the second field of the last entry;
`none` models the `IndexError` on an empty list. -/
def setLastSnd : List HistEntry → String → Option (List HistEntry)
  | [], _ => none
  | [e], s => some [(e.1, s)]
  | e :: e' :: rest, s => (setLastSnd (e' :: rest) s).map (e :: ·)

/-- Python `history[-1][1] += s`: append to the second field of the last
entry; `none` models the `IndexError` on an empty list. -/
def addToLastSnd : List HistEntry → String → Option (List HistEntry)
  | [], _ => none
  | [e], s => some [(e.1, e.2 ++ s)]
  | e :: e' :: rest, s => (addToLastSnd (e' :: rest) s).map (e :: ·)

/-- The content string a choice contributes: `delta.get('content', '')`,
with absent or null content contributing the empty string. -/
def contentDelta (c : Choice) : String :=
  match c.delta.content with
  | some (some s) => s
  | _ => ""

/-- The arguments string a choice contributes, empty when absent. -/
def argumentsDelta (c : Choice) : String :=
  match c.delta.function_call with
  | some fc => fc.arguments.getD ""
  | none => ""

/-- The function name a choice carries, empty when absent. -/
def nameDelta (c : Choice) : String :=
  match c.delta.function_call with
  | some fc => fc.name.getD ""
  | none => ""

/-- `RoleChoiceStrategy.support`: `'role' in self.delta`. -/
def RoleChoiceStrategy.support (c : Choice) : Bool :=
  c.delta.role.isSome

/-- `RoleChoiceStrategy.execute`. -/
def RoleChoiceStrategy.execute (_env : Env) (c : Choice)
    (bb : BotBackend) (history : List HistEntry) (whether_exit : Bool) : PResult :=
  .ok (bb.set_assistant_role_name (c.delta.role.getD ""), history, whether_exit)

/-- `ContentChoiceStrategy.support`: `'content' in self.delta and
self.delta['content'] is not None`. -/
def ContentChoiceStrategy.support (c : Choice) : Bool :=
  match c.delta.content with
  | some (some _) => true
  | _ => false

/-- `ContentChoiceStrategy.execute`: accumulate the content and write it
into the last history entry (an `IndexError` propagates when the history is
empty). -/
def ContentChoiceStrategy.execute (_env : Env) (c : Choice)
    (bb : BotBackend) (history : List HistEntry) (whether_exit : Bool) : PResult :=
  let bb1 := bb.add_content (contentDelta c)
  match setLastSnd history bb1.content with
  | some h1 => .ok (bb1, h1, whether_exit)
  | none => .error (.other "list index out of range", bb1)

/-- `NameFunctionCallChoiceStrategy.support`: `'function_call' in self.delta
and 'name' in self.delta['function_call']`. -/
def NameFunctionCallChoiceStrategy.support (c : Choice) : Bool :=
  match c.delta.function_call with
  | some fc => fc.name.isSome
  | none => false

/-- `NameFunctionCallChoiceStrategy.execute`: record the function name and a
copy of the history; when the name is not an available function, append an
error entry and set `whether_exit`. -/
def NameFunctionCallChoiceStrategy.execute (env : Env) (c : Choice)
    (bb : BotBackend) (history : List HistEntry) (whether_exit : Bool) : PResult :=
  let bb1 := (bb.set_function_name (nameDelta c)).copy_current_bot_history history
  if bb1.function_name ∈ env.available then
    .ok (bb1, history, whether_exit)
  else
    .ok (bb1,
      history ++ [(none,
        "GPT attempted to call a function that does not exist: " ++ bb1.function_name ++ "\n ")],
      true)

/-- `ArgumentsFunctionCallChoiceStrategy.support`: `'function_call' in
self.delta and 'arguments' in self.delta['function_call']`. -/
def ArgumentsFunctionCallChoiceStrategy.support (c : Choice) : Bool :=
  match c.delta.function_call with
  | some fc => fc.arguments.isSome
  | none => false

/-- `ArgumentsFunctionCallChoiceStrategy.execute`: accumulate the arguments
string; for the hallucinatory `python` function, display the raw text; for
other functions, display only when `parse_json` with `finished=False`
detects complete JSON.  The display path replaces the local history with a
deep copy of the backend's bot history and appends the display code block
to its last entry (an `IndexError` propagates when that copy is empty). -/
def ArgumentsFunctionCallChoiceStrategy.execute (env : Env) (c : Choice)
    (bb : BotBackend) (history : List HistEntry) (whether_exit : Bool) : PResult :=
  let bb1 := bb.add_function_args_str (argumentsDelta c)
  if bb1.function_name = "python" then
    let bb2 := bb1.update_display_code_block
      ("\n🔴Working:\n```python\n" ++ bb1.function_args_str ++ "\n```")
    match addToLastSnd bb2.bot_history bb2.display_code_block with
    | some h2 => .ok (bb2, h2, whether_exit)
    | none => .error (.other "list index out of range", bb2)
  else
    match env.parse_json bb1.function_args_str false with
    | some temp_code_str =>
      let bb2 := bb1.update_display_code_block
        ("\n🔴Working:\n```python\n" ++ temp_code_str ++ "\n```")
      match addToLastSnd bb2.bot_history bb2.display_code_block with
      | some h2 => .ok (bb2, h2, whether_exit)
      | none => .error (.other "list index out of range", bb2)
    | none => .ok (bb1, history, whether_exit)

/-- `FinishReasonChoiceStrategy.support`: `self.choice['finish_reason'] is
not None`. -/
def FinishReasonChoiceStrategy.support (c : Choice) : Bool :=
  c.finish_reason.isSome

/-- `FinishReasonChoiceStrategy.get_code_str`: the raw arguments string for
the `python` function, otherwise the result of `parse_json` with
`finished=True`.  When that is `None`, the source executes
`raise json.JSONDecodeError` with no arguments; since
`json.JSONDecodeError.__init__` requires `msg`, `doc` and `pos`, that
statement actually raises a `TypeError` (rendered here as CPython 3.10+
renders it), not a `JSONDecodeError`. -/
def FinishReasonChoiceStrategy.get_code_str (env : Env) (bb : BotBackend) :
    Except PyExn String :=
  if bb.function_name = "python" then
    .ok bb.function_args_str
  else
    match env.parse_json bb.function_args_str true with
    | some code_str => .ok code_str
    | none =>
      .error (.other
        "JSONDecodeError.__init__() missing 3 required positional arguments: 'msg', 'doc', and 'pos'")

/-- `FinishReasonChoiceStrategy.execute`: flush the accumulated content as a
message, record the finish reason, and when it is `'function_call'` extract
the code, display it, invoke the backend function, record the response, and
append it to the history; on `json.JSONDecodeError` append a
`GPT generate wrong function args` entry, on any other exception a
`Backend error:` entry, in both cases setting `whether_exit` and skipping
the reset; otherwise reset the per-response log values (excluding
`finish_reason`).  The `json.JSONDecodeError` handler is dead code: the
parse-failure raise in `get_code_str` actually produces a `TypeError`, which
only the generic `except Exception` handler catches. -/
def FinishReasonChoiceStrategy.execute (env : Env) (c : Choice)
    (bb : BotBackend) (history : List HistEntry) (whether_exit : Bool) : PResult :=
  let bb0 := if bb.content ≠ "" then bb.add_gpt_response_content_message else bb
  let bb1 := bb0.update_finish_reason c.finish_reason
  if bb1.finish_reason = some "function_call" then
    match FinishReasonChoiceStrategy.get_code_str env bb1 with
    | .error .jsonDecode =>
      .ok (bb1,
        history ++ [(none, "GPT generate wrong function args: " ++ bb1.function_args_str)],
        true)
    | .error (.other m) =>
      .ok (bb1, history ++ [(none, "Backend error: " ++ m)], true)
    | .ok code_str =>
      let bb2 := bb1.update_display_code_block
        ("\n🟢Working:\n```python\n" ++ code_str ++ "\n```")
      let history1 := bb2.bot_history
      match addToLastSnd history1 bb2.display_code_block with
      | none =>
        -- IndexError inside the try block, caught by `except Exception`;
        -- at this point the local `history` has already been reassigned to
        -- the (empty) copy of the bot history.
        .ok (bb2, history1 ++ [(none, "Backend error: list index out of range")], true)
      | some history2 =>
        if bb2.function_name ∈ env.available then
          let bb3 := bb2.record_call bb2.function_name code_str
          match env.impl bb2.function_name code_str with
          | .error m =>
            .ok (bb3, history2 ++ [(none, "Backend error: " ++ m)], true)
          | .ok (text_to_gpt, content_to_display) =>
            let bb4 := bb3.add_function_call_response_message text_to_gpt true
            let history3 := add_function_response_to_bot_history
              content_to_display history2 bb4.unique_id
            .ok (bb4.reset_gpt_response_log_values, history3, whether_exit)
        else
          -- KeyError on function_dict lookup, caught by `except Exception`.
          .ok (bb2,
            history2 ++ [(none, "Backend error: '" ++ bb2.function_name ++ "'")],
            true)
  else
    .ok (bb1.reset_gpt_response_log_values, history, whether_exit)

/-- The five strategies, in the order of `ChoiceHandler.strategies`. -/
inductive StrategyName where
  | role
  | content
  | nameFunctionCall
  | argumentsFunctionCall
  | finishReason
deriving DecidableEq

/-- Dispatch to each strategy's `support`. -/
def supportOf : StrategyName → Choice → Bool
  | .role => RoleChoiceStrategy.support
  | .content => ContentChoiceStrategy.support
  | .nameFunctionCall => NameFunctionCallChoiceStrategy.support
  | .argumentsFunctionCall => ArgumentsFunctionCallChoiceStrategy.support
  | .finishReason => FinishReasonChoiceStrategy.support

/-- Dispatch to each strategy's `execute`. -/
def executeOf : StrategyName → Env → Choice → BotBackend → List HistEntry → Bool → PResult
  | .role => RoleChoiceStrategy.execute
  | .content => ContentChoiceStrategy.execute
  | .nameFunctionCall => NameFunctionCallChoiceStrategy.execute
  | .argumentsFunctionCall => ArgumentsFunctionCallChoiceStrategy.execute
  | .finishReason => FinishReasonChoiceStrategy.execute

/-- `ChoiceHandler.strategies`. -/
def ChoiceHandler.strategies : List StrategyName :=
  [.role, .content, .nameFunctionCall, .argumentsFunctionCall, .finishReason]

/-- One iteration of the loop in `ChoiceHandler.handle`: skip the strategy
when its support predicate fails, otherwise run its `execute`. -/
def ChoiceHandler.step (env : Env) (c : Choice) (st : PState) (s : StrategyName) : PResult :=
  if supportOf s c then executeOf s env c st.1 st.2.1 st.2.2 else .ok st

/-- `ChoiceHandler.handle`: fold the strategies over the state. -/
def ChoiceHandler.handle (env : Env) (c : Choice)
    (bb : BotBackend) (history : List HistEntry) (whether_exit : Bool) : PResult :=
  ChoiceHandler.strategies.foldlM (ChoiceHandler.step env c) (bb, history, whether_exit)

/-- `parse_response`: with an empty `choices` list, return the history and
`whether_exit=False` untouched; otherwise handle the first choice. -/
def parse_response (env : Env) (chunk : Chunk)
    (history : List HistEntry) (bb : BotBackend) : PResult :=
  match chunk.choices with
  | [] => .ok (bb, history, false)
  | choice :: _ => ChoiceHandler.handle env choice bb history false

/-- Processing a sequence of fragments, threading the state, as repeated
calls of `ChoiceHandler.handle`. -/
def processChoices (env : Env) (cs : List Choice) (st : PState) : PResult :=
  cs.foldlM (fun s c => ChoiceHandler.handle env c s.1 s.2.1 s.2.2) st

/-- Concatenation of a list of strings, in order. -/
def strJoin : List String → String
  | [] => ""
  | s :: rest => s ++ strJoin rest

/-- The backend state carried by a result: the final state on success, the
state at the raise on an uncaught exception. -/
def backendOf : PResult → BotBackend
  | .ok (b, _, _) => b
  | .error (_, b) => b

/-- A concrete backend state for witnesses: all accumulators empty, a
one-entry bot history. -/
def sampleBackend : BotBackend :=
  { assistant_role_name := ""
    content := ""
    function_name := "python"
    function_args_str := "print(1)"
    display_code_block := ""
    finish_reason := none
    bot_history := [(some "hi", "")]
    messages := []
    unique_id := "u0"
    calls := [] }

/-- A concrete environment for witnesses: only `python` is available, the
backend function succeeds, and `parse_json` echoes the string when finished. -/
def sampleEnv : Env :=
  { parse_json := fun s finished => if finished then some s else none
    available := ["python"]
    impl := fun _ code => .ok ("executed", "display: " ++ code) }

/-- A concrete backend at the start of a response: all accumulators empty,
a one-entry bot history. -/
def sampleBackend0 : BotBackend :=
  { assistant_role_name := ""
    content := ""
    function_name := ""
    function_args_str := ""
    display_code_block := ""
    finish_reason := none
    bot_history := [(some "hi", "")]
    messages := []
    unique_id := "u0"
    calls := [] }

/-- A concrete fragment carrying both a function name and arguments, as the
first fragment of a streamed function call does. -/
def sampleNameArgsChoice : Choice :=
  { delta :=
      { role := none
        content := none
        function_call := some { name := some "python", arguments := some "print(1)" } }
    finish_reason := none }

/-! ### Helper lemmas -/

theorem setLastSnd_isSome (h : List HistEntry) (s : String) (hne : h ≠ []) :
    ∃ h', setLastSnd h s = some h' := by
  induction h with
  | nil => exact absurd rfl hne
  | cons e rest ih =>
    cases rest with
    | nil => exact ⟨[(e.1, s)], rfl⟩
    | cons e' rest' =>
      obtain ⟨h', hh'⟩ := ih (by simp)
      exact ⟨e :: h', by simp [setLastSnd, hh']⟩

theorem addToLastSnd_isSome (h : List HistEntry) (s : String) (hne : h ≠ []) :
    ∃ h', addToLastSnd h s = some h' := by
  induction h with
  | nil => exact absurd rfl hne
  | cons e rest ih =>
    cases rest with
    | nil => exact ⟨[(e.1, e.2 ++ s)], rfl⟩
    | cons e' rest' =>
      obtain ⟨h', hh'⟩ := ih (by simp)
      exact ⟨e :: h', by simp [addToLastSnd, hh']⟩

theorem setLastSnd_getLast (h : List HistEntry) (s : String) (h' : List HistEntry)
    (heq : setLastSnd h s = some h') : ∃ a, h'.getLast? = some (a, s) := by
  induction h generalizing h' with
  | nil => simp [setLastSnd] at heq
  | cons e rest ih =>
    cases rest with
    | nil =>
      simp [setLastSnd] at heq
      exact ⟨e.1, by simp [← heq]⟩
    | cons e' rest' =>
      simp only [setLastSnd, Option.map_eq_some'] at heq
      obtain ⟨h'', hh'', rfl⟩ := heq
      obtain ⟨a, ha⟩ := ih h'' hh''
      cases h'' with
      | nil => simp at ha
      | cons b t => exact ⟨a, by simpa using ha⟩

/-- Unfolding `ChoiceHandler.handle` into the explicit five-step chain. -/
theorem handle_eq_chain (env : Env) (c : Choice) (bb : BotBackend)
    (history : List HistEntry) (whether_exit : Bool) :
    ChoiceHandler.handle env c bb history whether_exit =
      (ChoiceHandler.step env c (bb, history, whether_exit) .role >>= fun s1 =>
       ChoiceHandler.step env c s1 .content >>= fun s2 =>
       ChoiceHandler.step env c s2 .nameFunctionCall >>= fun s3 =>
       ChoiceHandler.step env c s3 .argumentsFunctionCall >>= fun s4 =>
       ChoiceHandler.step env c s4 .finishReason) := by
  simp [ChoiceHandler.handle, ChoiceHandler.strategies, List.foldlM]

theorem contentDelta_eq_empty (c : Choice) (hs : ContentChoiceStrategy.support c = false) :
    contentDelta c = "" := by
  cases hc : c.delta.content with
  | none => simp [contentDelta, hc]
  | some v =>
    cases v with
    | none => simp [contentDelta, hc]
    | some s => simp [ContentChoiceStrategy.support, hc] at hs

theorem argumentsDelta_eq_empty (c : Choice)
    (hs : ArgumentsFunctionCallChoiceStrategy.support c = false) :
    argumentsDelta c = "" := by
  cases hfc : c.delta.function_call with
  | none => simp [argumentsDelta, hfc]
  | some fc =>
    cases ha : fc.arguments with
    | none => simp [argumentsDelta, hfc, ha]
    | some s => simp [ArgumentsFunctionCallChoiceStrategy.support, hfc, ha] at hs

/-- Effect of one strategy step on the accumulated content and arguments,
for fragments with no finish reason. -/
theorem step_content_args (env : Env) (c : Choice) (st st' : PState) (s : StrategyName)
    (hfr : c.finish_reason = none)
    (hok : ChoiceHandler.step env c st s = .ok st') :
    st'.1.content = st.1.content ++ (if s = .content then contentDelta c else "") ∧
    st'.1.function_args_str =
      st.1.function_args_str ++ (if s = .argumentsFunctionCall then argumentsDelta c else "") := by
  obtain ⟨bb, history, we⟩ := st
  cases s with
  | role =>
    simp only [ChoiceHandler.step, supportOf, executeOf] at hok
    split at hok
    · simp only [RoleChoiceStrategy.execute, Except.ok.injEq] at hok
      subst hok
      simp [BotBackend.set_assistant_role_name]
    · simp only [Except.ok.injEq] at hok
      subst hok
      simp
  | content =>
    simp only [ChoiceHandler.step, supportOf, executeOf] at hok
    split at hok
    · simp only [ContentChoiceStrategy.execute] at hok
      split at hok
      · simp only [Except.ok.injEq] at hok
        subst hok
        simp [BotBackend.add_content]
      · exact absurd hok (by simp)
    · simp only [Except.ok.injEq] at hok
      subst hok
      rename_i hs
      simp [contentDelta_eq_empty c (Bool.of_not_eq_true hs)]
  | nameFunctionCall =>
    simp only [ChoiceHandler.step, supportOf, executeOf] at hok
    split at hok
    · simp only [NameFunctionCallChoiceStrategy.execute] at hok
      split at hok <;>
      · simp only [Except.ok.injEq] at hok
        subst hok
        simp [BotBackend.set_function_name, BotBackend.copy_current_bot_history]
    · simp only [Except.ok.injEq] at hok
      subst hok
      simp
  | argumentsFunctionCall =>
    simp only [ChoiceHandler.step, supportOf, executeOf] at hok
    split at hok
    · simp only [ArgumentsFunctionCallChoiceStrategy.execute] at hok
      split at hok
      · -- python branch
        split at hok
        · simp only [Except.ok.injEq] at hok
          subst hok
          simp [BotBackend.add_function_args_str, BotBackend.update_display_code_block]
        · exact absurd hok (by simp)
      · -- json branch
        split at hok
        · split at hok
          · simp only [Except.ok.injEq] at hok
            subst hok
            simp [BotBackend.add_function_args_str, BotBackend.update_display_code_block]
          · exact absurd hok (by simp)
        · simp only [Except.ok.injEq] at hok
          subst hok
          simp [BotBackend.add_function_args_str]
    · simp only [Except.ok.injEq] at hok
      subst hok
      rename_i hs
      simp [argumentsDelta_eq_empty c (Bool.of_not_eq_true hs)]
  | finishReason =>
    have hs : FinishReasonChoiceStrategy.support c = false := by
      simp [FinishReasonChoiceStrategy.support, hfr]
    simp only [ChoiceHandler.step, supportOf, hs, Bool.false_eq_true, if_false,
      Except.ok.injEq] at hok
    subst hok
    simp

/-- Accumulation of content and arguments across any list of strategy
steps, for a fragment with no finish reason. -/
theorem foldSteps_content_args (env : Env) (c : Choice) (hfr : c.finish_reason = none) :
    ∀ (ss : List StrategyName) (st st' : PState),
      ss.foldlM (ChoiceHandler.step env c) st = .ok st' →
      st'.1.content = st.1.content ++
        strJoin (ss.map fun s => if s = .content then contentDelta c else "") ∧
      st'.1.function_args_str = st.1.function_args_str ++
        strJoin (ss.map fun s => if s = .argumentsFunctionCall then argumentsDelta c else "") := by
  intro ss
  induction ss with
  | nil =>
    intro st st' hok
    have hst : st = st' := by
      simpa [List.foldlM, pure, Except.pure] using hok
    subst hst
    simp [strJoin]
  | cons s ss ih =>
    intro st st' hok
    rw [show List.foldlM (ChoiceHandler.step env c) st (s :: ss) =
        (ChoiceHandler.step env c st s >>= fun s1 =>
          List.foldlM (ChoiceHandler.step env c) s1 ss) from rfl] at hok
    cases hstep : ChoiceHandler.step env c st s with
    | error e =>
      rw [hstep] at hok
      simp only [Bind.bind, Except.bind] at hok
      exact Except.noConfusion hok
    | ok s1 =>
      rw [hstep] at hok
      simp only [Bind.bind, Except.bind] at hok
      obtain ⟨hc1, ha1⟩ := step_content_args env c st s1 s hfr hstep
      obtain ⟨hc2, ha2⟩ := ih s1 st' hok
      constructor
      · rw [hc2, hc1, String.append_assoc]
        simp [strJoin]
      · rw [ha2, ha1, String.append_assoc]
        simp [strJoin]

/-- Handling one fragment with no finish reason appends exactly the
fragment's content and arguments deltas to the accumulators. -/
theorem handle_content_args (env : Env) (c : Choice) (bb : BotBackend)
    (history : List HistEntry) (we : Bool) (bb' : BotBackend) (h' : List HistEntry) (e' : Bool)
    (hfr : c.finish_reason = none)
    (hok : ChoiceHandler.handle env c bb history we = .ok (bb', h', e')) :
    bb'.content = bb.content ++ contentDelta c ∧
    bb'.function_args_str = bb.function_args_str ++ argumentsDelta c := by
  have h2 := foldSteps_content_args env c hfr ChoiceHandler.strategies
    (bb, history, we) (bb', h', e') hok
  simpa [ChoiceHandler.strategies, strJoin] using h2

/-- Accumulation of content and arguments across a sequence of fragments,
none of which carries a finish reason. -/
theorem processChoices_content_args (env : Env) :
    ∀ (cs : List Choice) (st st' : PState),
      (∀ c ∈ cs, c.finish_reason = none) →
      processChoices env cs st = .ok st' →
      st'.1.content = st.1.content ++ strJoin (cs.map contentDelta) ∧
      st'.1.function_args_str = st.1.function_args_str ++ strJoin (cs.map argumentsDelta) := by
  intro cs
  induction cs with
  | nil =>
    intro st st' _ hok
    have hst : st = st' := by
      simpa [processChoices, List.foldlM, pure, Except.pure] using hok
    subst hst
    simp [strJoin]
  | cons c cs ih =>
    intro st st' hfr hok
    rw [show processChoices env (c :: cs) st =
        (ChoiceHandler.handle env c st.1 st.2.1 st.2.2 >>= fun s1 =>
          processChoices env cs s1) from rfl] at hok
    cases hstep : ChoiceHandler.handle env c st.1 st.2.1 st.2.2 with
    | error e =>
      rw [hstep] at hok
      simp only [Bind.bind, Except.bind] at hok
      exact Except.noConfusion hok
    | ok s1 =>
      rw [hstep] at hok
      simp only [Bind.bind, Except.bind] at hok
      obtain ⟨bb1, h1, e1⟩ := s1
      obtain ⟨hc1, ha1⟩ := handle_content_args env c st.1 st.2.1 st.2.2 bb1 h1 e1
        (hfr c (by simp)) hstep
      obtain ⟨hc2, ha2⟩ := ih (bb1, h1, e1) st' (fun x hx => hfr x (by simp [hx])) hok
      constructor
      · rw [hc2]
        dsimp only
        rw [hc1, String.append_assoc]
        simp [strJoin]
      · rw [ha2]
        dsimp only
        rw [ha1, String.append_assoc]
        simp [strJoin]

/-- After a pure content fragment is handled, the second field of the last
history entry equals the accumulated content. -/
theorem handle_content_fragment_last (env : Env) (c : Choice) (bb : BotBackend)
    (history : List HistEntry) (we : Bool) (bb' : BotBackend) (h' : List HistEntry) (e' : Bool)
    (hsupp : ContentChoiceStrategy.support c = true)
    (hfc : c.delta.function_call = none)
    (hfr : c.finish_reason = none)
    (hne : history ≠ [])
    (hok : ChoiceHandler.handle env c bb history we = .ok (bb', h', e')) :
    ∃ a, h'.getLast? = some (a, bb'.content) := by
  have hname : NameFunctionCallChoiceStrategy.support c = false := by
    simp [NameFunctionCallChoiceStrategy.support, hfc]
  have hargs : ArgumentsFunctionCallChoiceStrategy.support c = false := by
    simp [ArgumentsFunctionCallChoiceStrategy.support, hfc]
  have hfin : FinishReasonChoiceStrategy.support c = false := by
    simp [FinishReasonChoiceStrategy.support, hfr]
  have tail : ∀ bbX : BotBackend,
      (ChoiceHandler.step env c (bbX, history, we) .content >>= fun s2 =>
       ChoiceHandler.step env c s2 .nameFunctionCall >>= fun s3 =>
       ChoiceHandler.step env c s3 .argumentsFunctionCall >>= fun s4 =>
       ChoiceHandler.step env c s4 .finishReason) = .ok (bb', h', e') →
      ∃ a, h'.getLast? = some (a, bb'.content) := by
    intro bbX htail
    obtain ⟨h1, hh1⟩ := setLastSnd_isSome history (bbX.add_content (contentDelta c)).content hne
    have hstep2 : ChoiceHandler.step env c (bbX, history, we) .content =
        .ok (bbX.add_content (contentDelta c), h1, we) := by
      simp [ChoiceHandler.step, supportOf, hsupp, executeOf, ContentChoiceStrategy.execute, hh1]
    rw [hstep2] at htail
    simp only [Bind.bind, Except.bind, ChoiceHandler.step, supportOf, hname, hargs, hfin,
      Bool.false_eq_true, if_false, Except.ok.injEq, Prod.mk.injEq] at htail
    obtain ⟨hbb, hh, -⟩ := htail
    subst hbb
    subst hh
    exact setLastSnd_getLast history _ h1 hh1
  rw [handle_eq_chain] at hok
  by_cases hr : RoleChoiceStrategy.support c
  · have hstep1 : ChoiceHandler.step env c (bb, history, we) .role =
        .ok (bb.set_assistant_role_name (c.delta.role.getD ""), history, we) := by
      simp [ChoiceHandler.step, supportOf, executeOf, RoleChoiceStrategy.execute, hr]
    rw [hstep1] at hok
    simp only [Bind.bind, Except.bind] at hok
    exact tail _ hok
  · have hstep1 : ChoiceHandler.step env c (bb, history, we) .role = .ok (bb, history, we) := by
      simp [ChoiceHandler.step, supportOf, hr]
    rw [hstep1] at hok
    simp only [Bind.bind, Except.bind] at hok
    exact tail _ hok

/-! ### C2 -/

/-- C2: across any sequence of fragments processed before a finish reason
arrives, the backend's content is the concatenation (in arrival order) of
the non-null content deltas and its function-arguments string is the
concatenation of the arguments deltas; and after a pure content fragment is
handled, the second field of the last history entry equals the accumulated
content. -/
theorem c2_accumulated_content_and_args (env : Env) :
    (∀ (cs : List Choice) (bb : BotBackend) (history : List HistEntry) (we : Bool)
        (bb' : BotBackend) (h' : List HistEntry) (e' : Bool),
      (∀ c ∈ cs, c.finish_reason = none) →
      bb.content = "" → bb.function_args_str = "" →
      processChoices env cs (bb, history, we) = .ok (bb', h', e') →
      bb'.content = strJoin (cs.map contentDelta) ∧
      bb'.function_args_str = strJoin (cs.map argumentsDelta)) ∧
    (∀ (c : Choice) (bb : BotBackend) (history : List HistEntry) (we : Bool)
        (bb' : BotBackend) (h' : List HistEntry) (e' : Bool),
      ContentChoiceStrategy.support c = true →
      c.delta.function_call = none →
      c.finish_reason = none →
      history ≠ [] →
      ChoiceHandler.handle env c bb history we = .ok (bb', h', e') →
      ∃ a, h'.getLast? = some (a, bb'.content)) := by
  constructor
  · intro cs bb history we bb' h' e' hfr hc0 ha0 hok
    obtain ⟨hc, ha⟩ := processChoices_content_args env cs (bb, history, we) (bb', h', e') hfr hok
    constructor
    · rw [hc]
      dsimp only
      rw [hc0, String.empty_append]
    · rw [ha]
      dsimp only
      rw [ha0, String.empty_append]
  · intro c bb history we bb' h' e' hsupp hfc hfr hne hok
    exact handle_content_fragment_last env c bb history we bb' h' e' hsupp hfc hfr hne hok

/-! ### C10 -/

/-- C10: for a chunk with an empty `choices` list, `parse_response` returns
the input history unchanged with `whether_exit = False` and the backend
untouched; for a non-empty list, only the first choice is examined (the
result is that of handling the first choice, whatever the rest is). -/
theorem c10_parse_response_choices (env : Env) :
    (∀ chunk history bb, chunk.choices = [] →
      parse_response env chunk history bb = .ok (bb, history, false)) ∧
    (∀ chunk c rest history bb, chunk.choices = c :: rest →
      parse_response env chunk history bb = ChoiceHandler.handle env c bb history false) := by
  constructor
  · intro chunk history bb hch
    simp [parse_response, hch]
  · intro chunk c rest history bb hch
    simp [parse_response, hch]

/-! ### C8 -/

/-- C8: when the fragment names a function not in `available_functions`, the
name strategy appends a `[None, message]` entry naming the non-existent
function and returns `whether_exit = True`; when the function exists,
history and `whether_exit` are returned unchanged. -/
theorem c8_nonexistent_function (env : Env) (c : Choice) (bb : BotBackend)
    (history : List HistEntry) (whether_exit : Bool) :
    (nameDelta c ∉ env.available →
      NameFunctionCallChoiceStrategy.execute env c bb history whether_exit =
        .ok ((bb.set_function_name (nameDelta c)).copy_current_bot_history history,
          history ++ [(none,
            "GPT attempted to call a function that does not exist: " ++ nameDelta c ++ "\n ")],
          true)) ∧
    (nameDelta c ∈ env.available →
      NameFunctionCallChoiceStrategy.execute env c bb history whether_exit =
        .ok ((bb.set_function_name (nameDelta c)).copy_current_bot_history history,
          history, whether_exit)) := by
  constructor
  · intro hni
    simp [NameFunctionCallChoiceStrategy.execute, BotBackend.set_function_name,
      BotBackend.copy_current_bot_history, hni]
  · intro hi
    simp [NameFunctionCallChoiceStrategy.execute, BotBackend.set_function_name,
      BotBackend.copy_current_bot_history, hi]

/-! ### C4 -/

/-- No single strategy step changes the call log unless the fragment's
finish reason is `'function_call'`. -/
theorem step_calls (env : Env) (c : Choice) (st : PState) (s : StrategyName)
    (hfr : c.finish_reason ≠ some "function_call") :
    (backendOf (ChoiceHandler.step env c st s)).calls = st.1.calls := by
  obtain ⟨bb, history, we⟩ := st
  cases s with
  | role =>
    simp only [ChoiceHandler.step, supportOf, executeOf, RoleChoiceStrategy.execute]
    split <;> simp [backendOf, BotBackend.set_assistant_role_name]
  | content =>
    simp only [ChoiceHandler.step, supportOf, executeOf, ContentChoiceStrategy.execute]
    split
    · split <;> simp [backendOf, BotBackend.add_content]
    · simp [backendOf]
  | nameFunctionCall =>
    simp only [ChoiceHandler.step, supportOf, executeOf, NameFunctionCallChoiceStrategy.execute]
    split
    · split <;>
        simp [backendOf, BotBackend.set_function_name, BotBackend.copy_current_bot_history]
    · simp [backendOf]
  | argumentsFunctionCall =>
    simp only [ChoiceHandler.step, supportOf, executeOf,
      ArgumentsFunctionCallChoiceStrategy.execute]
    split
    · split
      · split <;>
          simp [backendOf, BotBackend.add_function_args_str, BotBackend.update_display_code_block]
      · split
        · split <;>
            simp [backendOf, BotBackend.add_function_args_str,
              BotBackend.update_display_code_block]
        · simp [backendOf, BotBackend.add_function_args_str]
    · simp [backendOf]
  | finishReason =>
    simp only [ChoiceHandler.step, supportOf, FinishReasonChoiceStrategy.support]
    split
    · simp only [executeOf, FinishReasonChoiceStrategy.execute, BotBackend.update_finish_reason,
        BotBackend.add_gpt_response_content_message]
      split
      · rename_i hcontra
        exact absurd hcontra hfr
      · split <;> simp [backendOf, BotBackend.reset_gpt_response_log_values,
          BotBackend.add_gpt_response_content_message]
    · simp [backendOf]

/-- The call log is unchanged by any list of strategy steps for a fragment
whose finish reason is not `'function_call'`. -/
theorem foldSteps_calls (env : Env) (c : Choice) (hfr : c.finish_reason ≠ some "function_call") :
    ∀ (ss : List StrategyName) (st : PState),
      (backendOf (ss.foldlM (ChoiceHandler.step env c) st)).calls = st.1.calls := by
  intro ss
  induction ss with
  | nil =>
    intro st
    simp [List.foldlM, backendOf, pure, Except.pure]
  | cons s ss ih =>
    intro st
    rw [show List.foldlM (ChoiceHandler.step env c) st (s :: ss) =
        (ChoiceHandler.step env c st s >>= fun s1 =>
          List.foldlM (ChoiceHandler.step env c) s1 ss) from rfl]
    have h1 := step_calls env c st s hfr
    cases hstep : ChoiceHandler.step env c st s with
    | error e =>
      simp only [Bind.bind, Except.bind]
      obtain ⟨ex, bbe⟩ := e
      rw [hstep] at h1
      simpa [backendOf] using h1
    | ok s1 =>
      simp only [Bind.bind, Except.bind]
      rw [ih s1]
      rw [hstep] at h1
      simpa [backendOf] using h1

/-- C4: processing a fragment whose finish reason is not `'function_call'`
(in particular one whose `finish_reason` is `None`) never invokes any
backend execution function: the call log is unchanged both on normal
return and on an uncaught exception. -/
theorem c4_no_call_without_function_call (env : Env) (c : Choice) (bb : BotBackend)
    (history : List HistEntry) (we : Bool)
    (hfr : c.finish_reason ≠ some "function_call") :
    (∀ bb' h' e', ChoiceHandler.handle env c bb history we = .ok (bb', h', e') →
      bb'.calls = bb.calls) ∧
    (∀ ex bb', ChoiceHandler.handle env c bb history we = .error (ex, bb') →
      bb'.calls = bb.calls) := by
  have h := foldSteps_calls env c hfr ChoiceHandler.strategies (bb, history, we)
  constructor
  · intro bb' h' e' hok
    rw [show ChoiceHandler.strategies.foldlM (ChoiceHandler.step env c) (bb, history, we) =
      ChoiceHandler.handle env c bb history we from rfl, hok] at h
    simpa [backendOf] using h
  · intro ex bb' herr
    rw [show ChoiceHandler.strategies.foldlM (ChoiceHandler.step env c) (bb, history, we) =
      ChoiceHandler.handle env c bb history we from rfl, herr] at h
    simpa [backendOf] using h

/-- Witness for C4 at a concrete fragment with `finish_reason = None`. -/
theorem c4_witness :
    (∀ bb' h' e',
      ChoiceHandler.handle sampleEnv ⟨⟨none, some (some "hello"), none⟩, none⟩
        sampleBackend [(some "hi", "")] false = .ok (bb', h', e') →
      bb'.calls = sampleBackend.calls) ∧
    (∀ ex bb',
      ChoiceHandler.handle sampleEnv ⟨⟨none, some (some "hello"), none⟩, none⟩
        sampleBackend [(some "hi", "")] false = .error (ex, bb') →
      bb'.calls = sampleBackend.calls) :=
  c4_no_call_without_function_call sampleEnv ⟨⟨none, some (some "hello"), none⟩, none⟩
    sampleBackend [(some "hi", "")] false (by simp)

/-! ### C3 -/

/-- C3: handling a fragment applies exactly the strategies whose support
predicate holds, in the fixed order Role, Content, NameFunctionCall,
ArgumentsFunctionCall, FinishReason, threading the state returned by each
applied strategy into the next; a strategy whose predicate is false leaves
the state untouched. -/
theorem c3_handle_fixed_order (env : Env) (c : Choice) (bb : BotBackend)
    (history : List HistEntry) (whether_exit : Bool) :
    ChoiceHandler.handle env c bb history whether_exit =
      ((if RoleChoiceStrategy.support c
          then RoleChoiceStrategy.execute env c bb history whether_exit
          else .ok (bb, history, whether_exit)) >>= fun s1 =>
       (if ContentChoiceStrategy.support c
          then ContentChoiceStrategy.execute env c s1.1 s1.2.1 s1.2.2
          else .ok s1) >>= fun s2 =>
       (if NameFunctionCallChoiceStrategy.support c
          then NameFunctionCallChoiceStrategy.execute env c s2.1 s2.2.1 s2.2.2
          else .ok s2) >>= fun s3 =>
       (if ArgumentsFunctionCallChoiceStrategy.support c
          then ArgumentsFunctionCallChoiceStrategy.execute env c s3.1 s3.2.1 s3.2.2
          else .ok s3) >>= fun s4 =>
       (if FinishReasonChoiceStrategy.support c
          then FinishReasonChoiceStrategy.execute env c s4.1 s4.2.1 s4.2.2
          else .ok s4)) := by
  simp [ChoiceHandler.handle, ChoiceHandler.strategies, List.foldlM, ChoiceHandler.step,
    supportOf, executeOf]

/-! ### The finish strategy's function-call paths -/

/-- `get_code_str` depends only on the accumulated function name and
arguments string. -/
theorem get_code_str_congr (env : Env) (b1 b2 : BotBackend)
    (hn : b1.function_name = b2.function_name)
    (ha : b1.function_args_str = b2.function_args_str) :
    FinishReasonChoiceStrategy.get_code_str env b1 =
      FinishReasonChoiceStrategy.get_code_str env b2 := by
  simp [FinishReasonChoiceStrategy.get_code_str, hn, ha]

/-- The happy path of `FinishReasonChoiceStrategy.execute` on a
`'function_call'` finish: the code extracts, the bot history is non-empty,
the function exists and succeeds; the result is the exact chain of backend
updates from the source, the history is the bot-history copy with the
display block added to its last entry and the function response appended,
and `whether_exit` is passed through. -/
theorem finish_execute_happy (env : Env) (c : Choice) (bb : BotBackend)
    (history : List HistEntry) (we : Bool) (code t d : String) (h2 : List HistEntry)
    (hfr : c.finish_reason = some "function_call")
    (hcode : FinishReasonChoiceStrategy.get_code_str env bb = .ok code)
    (hh2 : addToLastSnd bb.bot_history ("\n🟢Working:\n```python\n" ++ code ++ "\n```") = some h2)
    (hav : bb.function_name ∈ env.available)
    (himpl : env.impl bb.function_name code = .ok (t, d)) :
    FinishReasonChoiceStrategy.execute env c bb history we =
      .ok ((((((if bb.content ≠ "" then bb.add_gpt_response_content_message
            else bb).update_finish_reason
            (some "function_call")).update_display_code_block
            ("\n🟢Working:\n```python\n" ++ code ++ "\n```")).record_call bb.function_name
            code).add_function_call_response_message t
            true).reset_gpt_response_log_values,
        h2 ++ [(none, d)], we) := by
  simp only [FinishReasonChoiceStrategy.execute, hfr]
  generalize hB : ((if bb.content ≠ "" then bb.add_gpt_response_content_message
    else bb).update_finish_reason (some "function_call")) = B
  have hBn : B.function_name = bb.function_name := by
    rw [← hB]
    split <;>
      simp [BotBackend.update_finish_reason, BotBackend.add_gpt_response_content_message]
  have hBa : B.function_args_str = bb.function_args_str := by
    rw [← hB]
    split <;>
      simp [BotBackend.update_finish_reason, BotBackend.add_gpt_response_content_message]
  have hBh : B.bot_history = bb.bot_history := by
    rw [← hB]
    split <;>
      simp [BotBackend.update_finish_reason, BotBackend.add_gpt_response_content_message]
  have hBf : B.finish_reason = some "function_call" := by
    rw [← hB]
    simp [BotBackend.update_finish_reason]
  have hc : FinishReasonChoiceStrategy.get_code_str env B = .ok code := by
    rw [get_code_str_congr env B bb hBn hBa]
    exact hcode
  rw [if_pos hBf, hc]
  simp only [BotBackend.update_display_code_block]
  rw [hBh, hh2]
  simp only [hBn]
  rw [if_pos hav, himpl]
  simp [add_function_response_to_bot_history]

/-! ### C1 -/

/-- C1: on a `'function_call'` finish where the accumulated function name is
registered, the code string extracts, the bot history is non-empty, and the
backend function succeeds, processing invokes that function exactly once on
the extracted code string, records the function-call response message as
the backend's latest message, and appends the function response to the
returned history. -/
theorem c1_function_call_invokes_backend (env : Env) (c : Choice) (bb : BotBackend)
    (history : List HistEntry) (we : Bool) (code t d : String)
    (hfr : c.finish_reason = some "function_call")
    (hav : bb.function_name ∈ env.available)
    (hcode : FinishReasonChoiceStrategy.get_code_str env bb = .ok code)
    (hbh : bb.bot_history ≠ [])
    (himpl : env.impl bb.function_name code = .ok (t, d)) :
    ∃ bb' h2,
      FinishReasonChoiceStrategy.execute env c bb history we = .ok (bb', h2 ++ [(none, d)], we) ∧
      bb'.calls = bb.calls ++ [(bb.function_name, code)] ∧
      bb'.messages.getLast? = some (.functionCallMsg bb.function_name t true) ∧
      addToLastSnd bb.bot_history ("\n🟢Working:\n```python\n" ++ code ++ "\n```") = some h2 := by
  obtain ⟨h2, hh2⟩ :=
    addToLastSnd_isSome bb.bot_history ("\n🟢Working:\n```python\n" ++ code ++ "\n```") hbh
  refine ⟨_, h2, finish_execute_happy env c bb history we code t d h2 hfr hcode hh2 hav himpl,
    ?_, ?_, hh2⟩
  · split <;>
      simp [BotBackend.reset_gpt_response_log_values, BotBackend.add_function_call_response_message,
        BotBackend.record_call, BotBackend.update_display_code_block,
        BotBackend.update_finish_reason, BotBackend.add_gpt_response_content_message]
  · split <;>
      simp [BotBackend.reset_gpt_response_log_values, BotBackend.add_function_call_response_message,
        BotBackend.record_call, BotBackend.update_display_code_block,
        BotBackend.update_finish_reason, BotBackend.add_gpt_response_content_message]

/-- Witness for C1 at a concrete environment, backend and fragment. -/
theorem c1_witness :
    ∃ bb' h2,
      FinishReasonChoiceStrategy.execute sampleEnv ⟨⟨none, none, none⟩, some "function_call"⟩
        sampleBackend [(some "hi", "")] false = .ok (bb', h2 ++ [(none, "display: print(1)")], false) ∧
      bb'.calls = sampleBackend.calls ++ [(sampleBackend.function_name, "print(1)")] ∧
      bb'.messages.getLast? =
        some (.functionCallMsg sampleBackend.function_name "executed" true) ∧
      addToLastSnd sampleBackend.bot_history
        ("\n🟢Working:\n```python\nprint(1)\n```") = some h2 :=
  c1_function_call_invokes_backend sampleEnv ⟨⟨none, none, none⟩, some "function_call"⟩
    sampleBackend [(some "hi", "")] false "print(1)" "executed" "display: print(1)"
    rfl (by simp [sampleEnv, sampleBackend])
    (by simp [sampleEnv, sampleBackend, FinishReasonChoiceStrategy.get_code_str])
    (by simp [sampleBackend]) rfl

/-! ### C5 -/

/-- C5: after a finish fragment is processed without hitting an exception
handler, the per-response log values (content, function name, function
arguments string, display code block) are reset to their initial empty
values while `finish_reason` keeps the value just assigned from the
fragment, and `whether_exit` is passed through. -/
theorem c5_reset_after_finish (env : Env) (c : Choice) (bb : BotBackend)
    (history : List HistEntry) (we : Bool) (fr : String)
    (hfr : c.finish_reason = some fr)
    (hok : fr ≠ "function_call" ∨
      (bb.function_name ∈ env.available ∧ bb.bot_history ≠ [] ∧
        ∃ code t d, FinishReasonChoiceStrategy.get_code_str env bb = .ok code ∧
          env.impl bb.function_name code = .ok (t, d))) :
    ∃ bb' h', FinishReasonChoiceStrategy.execute env c bb history we = .ok (bb', h', we) ∧
      bb'.content = "" ∧ bb'.function_name = "" ∧ bb'.function_args_str = "" ∧
      bb'.display_code_block = "" ∧ bb'.finish_reason = some fr := by
  by_cases hfc : fr = "function_call"
  · subst hfc
    rcases hok with hne | ⟨hav, hbh, code, t, d, hcode, himpl⟩
    · exact absurd rfl hne
    obtain ⟨h2, hh2⟩ :=
      addToLastSnd_isSome bb.bot_history ("\n🟢Working:\n```python\n" ++ code ++ "\n```") hbh
    refine ⟨_, h2 ++ [(none, d)],
      finish_execute_happy env c bb history we code t d h2 hfr hcode hh2 hav himpl,
      ?_, ?_, ?_, ?_, ?_⟩ <;>
    · split <;>
        simp [BotBackend.reset_gpt_response_log_values,
          BotBackend.add_function_call_response_message, BotBackend.record_call,
          BotBackend.update_display_code_block, BotBackend.update_finish_reason,
          BotBackend.add_gpt_response_content_message]
  · simp only [FinishReasonChoiceStrategy.execute, hfr]
    generalize hB : ((if bb.content ≠ "" then bb.add_gpt_response_content_message
      else bb).update_finish_reason (some fr)) = B
    have hBf : B.finish_reason = some fr := by
      rw [← hB]
      simp [BotBackend.update_finish_reason]
    rw [if_neg (by rw [hBf]; simp [hfc])]
    refine ⟨B.reset_gpt_response_log_values, history, rfl, ?_, ?_, ?_, ?_, ?_⟩ <;>
      simp [BotBackend.reset_gpt_response_log_values, hBf]

/-- Witness for C5 at a concrete finish fragment with reason `'stop'`. -/
theorem c5_witness :
    ∃ bb' h', FinishReasonChoiceStrategy.execute sampleEnv ⟨⟨none, none, none⟩, some "stop"⟩
        sampleBackend [(some "hi", "")] false = .ok (bb', h', false) ∧
      bb'.content = "" ∧ bb'.function_name = "" ∧ bb'.function_args_str = "" ∧
      bb'.display_code_block = "" ∧ bb'.finish_reason = some "stop" :=
  c5_reset_after_finish sampleEnv ⟨⟨none, none, none⟩, some "stop"⟩ sampleBackend
    [(some "hi", "")] false "stop" rfl (Or.inl (by decide))

/-! ### C9 -/

/-- C9 (code bug): at the claim's input — a `'function_call'` finish, an
accumulated function name that is not `'python'`, and accumulated arguments
that `parse_json` rejects with `finished=True` — the bare
`raise json.JSONDecodeError` raises `TypeError`, which bypasses the
`except json.JSONDecodeError` handler; the generic `except Exception`
handler appends a `Backend error:` entry instead of the
`GPT generate wrong function args` entry written in the code's own handler.
`whether_exit = True` and the skipped reset do match the claim. -/
theorem c9_bug_backend_error_at_failing_input :
    FinishReasonChoiceStrategy.execute
      ⟨fun _ _ => none, ["foo"], fun _ _ => .ok ("", "")⟩
      ⟨⟨none, none, none⟩, some "function_call"⟩
      ⟨"", "", "foo", "\x7bbad", "", none, [(some "hi", "")], [], "u0", []⟩
      [(some "hi", "")] false =
    .ok (⟨"", "", "foo", "\x7bbad", "", some "function_call", [(some "hi", "")], [], "u0", []⟩,
      [(some "hi", ""),
        (none,
          "Backend error: JSONDecodeError.__init__() missing 3 required positional arguments: 'msg', 'doc', and 'pos'")],
      true) := by
  rfl

/-! ### C6 -/

/-- C6: while arguments are streaming, for a non-`python` function the
display code block and history are updated only when the accumulated
arguments parse as complete JSON (`parse_json` with `finished=False`
returning a code string); for the `python` function the raw accumulated
arguments text is displayed on every arguments fragment, with no use of
`parse_json`. -/
theorem c6_arguments_streaming_display (env : Env) (c : Choice) (bb : BotBackend)
    (history : List HistEntry) (we : Bool) :
    (bb.function_name ≠ "python" →
      env.parse_json (bb.function_args_str ++ argumentsDelta c) false = none →
      ArgumentsFunctionCallChoiceStrategy.execute env c bb history we =
        .ok (bb.add_function_args_str (argumentsDelta c), history, we)) ∧
    (∀ code, bb.function_name ≠ "python" →
      env.parse_json (bb.function_args_str ++ argumentsDelta c) false = some code →
      bb.bot_history ≠ [] →
      ∃ h2, ArgumentsFunctionCallChoiceStrategy.execute env c bb history we =
        .ok ((bb.add_function_args_str (argumentsDelta c)).update_display_code_block
          ("\n🔴Working:\n```python\n" ++ code ++ "\n```"), h2, we) ∧
        addToLastSnd bb.bot_history ("\n🔴Working:\n```python\n" ++ code ++ "\n```") = some h2) ∧
    (bb.function_name = "python" → bb.bot_history ≠ [] →
      ∃ h2, ArgumentsFunctionCallChoiceStrategy.execute env c bb history we =
        .ok ((bb.add_function_args_str (argumentsDelta c)).update_display_code_block
          ("\n🔴Working:\n```python\n" ++ (bb.function_args_str ++ argumentsDelta c) ++ "\n```"),
          h2, we) ∧
        addToLastSnd bb.bot_history
          ("\n🔴Working:\n```python\n" ++ (bb.function_args_str ++ argumentsDelta c) ++ "\n```") =
          some h2) := by
  refine ⟨?_, ?_, ?_⟩
  · intro hnp hpj
    simp only [ArgumentsFunctionCallChoiceStrategy.execute, BotBackend.add_function_args_str]
    rw [if_neg (by simpa using hnp), hpj]
  · intro code hnp hpj hbh
    obtain ⟨h2, hh2⟩ :=
      addToLastSnd_isSome bb.bot_history ("\n🔴Working:\n```python\n" ++ code ++ "\n```") hbh
    refine ⟨h2, ?_, hh2⟩
    simp only [ArgumentsFunctionCallChoiceStrategy.execute, BotBackend.add_function_args_str,
      BotBackend.update_display_code_block]
    rw [if_neg (by simpa using hnp), hpj]
    simp only []
    rw [hh2]
  · intro hp hbh
    obtain ⟨h2, hh2⟩ := addToLastSnd_isSome bb.bot_history
      ("\n🔴Working:\n```python\n" ++ (bb.function_args_str ++ argumentsDelta c) ++ "\n```") hbh
    refine ⟨h2, ?_, hh2⟩
    simp only [ArgumentsFunctionCallChoiceStrategy.execute, BotBackend.add_function_args_str,
      BotBackend.update_display_code_block]
    rw [if_pos (by simpa using hp)]
    rw [hh2]

/-- Witness for C6 at the `python` branch with concrete inputs. -/
theorem c6_witness :
    ∃ h2, ArgumentsFunctionCallChoiceStrategy.execute sampleEnv sampleNameArgsChoice
        sampleBackend [(some "hi", "")] false =
      .ok ((sampleBackend.add_function_args_str
          (argumentsDelta sampleNameArgsChoice)).update_display_code_block
        ("\n🔴Working:\n```python\n" ++
          (sampleBackend.function_args_str ++ argumentsDelta sampleNameArgsChoice) ++ "\n```"),
        h2, false) ∧
      addToLastSnd sampleBackend.bot_history
        ("\n🔴Working:\n```python\n" ++
          (sampleBackend.function_args_str ++ argumentsDelta sampleNameArgsChoice) ++ "\n```") =
        some h2 :=
  (c6_arguments_streaming_display sampleEnv sampleNameArgsChoice sampleBackend
    [(some "hi", "")] false).2.2 rfl (by decide)

/-! ### C7 -/

/-- C7 counterexample: NameFunctionCall and ArgumentsFunctionCall are both
applicable to the first fragment of a streamed function call, yet applying
them in the two orders gives different results, because the arguments
strategy reads the function name the name strategy writes. -/
theorem c7_counterexample_order_dependent :
    NameFunctionCallChoiceStrategy.support sampleNameArgsChoice = true ∧
    ArgumentsFunctionCallChoiceStrategy.support sampleNameArgsChoice = true ∧
    (NameFunctionCallChoiceStrategy.execute sampleEnv sampleNameArgsChoice sampleBackend0
        [(some "hi", "")] false >>= fun st =>
      ArgumentsFunctionCallChoiceStrategy.execute sampleEnv sampleNameArgsChoice
        st.1 st.2.1 st.2.2) ≠
    (ArgumentsFunctionCallChoiceStrategy.execute sampleEnv sampleNameArgsChoice sampleBackend0
        [(some "hi", "")] false >>= fun st =>
      NameFunctionCallChoiceStrategy.execute sampleEnv sampleNameArgsChoice
        st.1 st.2.1 st.2.2) := by
  refine ⟨rfl, rfl, ?_⟩
  intro h
  exact absurd (congrArg (fun r => (backendOf r).display_code_block) h) (by decide)

/-- C7 amended: strategies touching disjoint state do commute; Role and
Content applied in either order give the same result on a non-empty
history. -/
theorem c7_role_content_commute (env : Env) (c : Choice) (bb : BotBackend)
    (history : List HistEntry) (we : Bool) (hne : history ≠ []) :
    (RoleChoiceStrategy.execute env c bb history we >>= fun st =>
      ContentChoiceStrategy.execute env c st.1 st.2.1 st.2.2) =
    (ContentChoiceStrategy.execute env c bb history we >>= fun st =>
      RoleChoiceStrategy.execute env c st.1 st.2.1 st.2.2) := by
  obtain ⟨h1, hh1⟩ := setLastSnd_isSome history (bb.content ++ contentDelta c) hne
  simp only [RoleChoiceStrategy.execute, ContentChoiceStrategy.execute,
    BotBackend.set_assistant_role_name, BotBackend.add_content, Bind.bind, Except.bind]
  rw [hh1]

/-- Witness for the amended C7 at a concrete non-empty history. -/
theorem c7_witness :
    (RoleChoiceStrategy.execute sampleEnv ⟨⟨some "assistant", some (some "hey"), none⟩, none⟩
        sampleBackend0 [(some "hi", "")] false >>= fun st =>
      ContentChoiceStrategy.execute sampleEnv ⟨⟨some "assistant", some (some "hey"), none⟩, none⟩
        st.1 st.2.1 st.2.2) =
    (ContentChoiceStrategy.execute sampleEnv ⟨⟨some "assistant", some (some "hey"), none⟩, none⟩
        sampleBackend0 [(some "hi", "")] false >>= fun st =>
      RoleChoiceStrategy.execute sampleEnv ⟨⟨some "assistant", some (some "hey"), none⟩, none⟩
        st.1 st.2.1 st.2.2) :=
  c7_role_content_commute sampleEnv ⟨⟨some "assistant", some (some "hey"), none⟩, none⟩
    sampleBackend0 [(some "hi", "")] false (by decide)

/-! ### Remaining witnesses -/

/-- Witness for C2 at a one-fragment sequence carrying content `"ab"`. -/
theorem c2_witness :
    (({ sampleBackend0 with content := "ab" } : BotBackend).content =
      strJoin ([(⟨⟨none, some (some "ab"), none⟩, none⟩ : Choice)].map contentDelta) ∧
    ({ sampleBackend0 with content := "ab" } : BotBackend).function_args_str =
      strJoin ([(⟨⟨none, some (some "ab"), none⟩, none⟩ : Choice)].map argumentsDelta)) ∧
    (∃ a, ([(some "hi", "ab")] : List HistEntry).getLast? =
      some (a, ({ sampleBackend0 with content := "ab" } : BotBackend).content)) :=
  ⟨(c2_accumulated_content_and_args sampleEnv).1
      [⟨⟨none, some (some "ab"), none⟩, none⟩] sampleBackend0 [(some "hi", "")] false
      { sampleBackend0 with content := "ab" } [(some "hi", "ab")] false
      (by simp) rfl rfl rfl,
   (c2_accumulated_content_and_args sampleEnv).2
      ⟨⟨none, some (some "ab"), none⟩, none⟩ sampleBackend0 [(some "hi", "")] false
      { sampleBackend0 with content := "ab" } [(some "hi", "ab")] false
      rfl rfl rfl (by decide) rfl⟩

/-- Witness for C8 at a fragment naming the unregistered function `magic`. -/
theorem c8_witness :
    NameFunctionCallChoiceStrategy.execute sampleEnv
      ⟨⟨none, none, some ⟨some "magic", none⟩⟩, none⟩ sampleBackend0 [(some "hi", "")] false =
      .ok ((sampleBackend0.set_function_name
          (nameDelta ⟨⟨none, none, some ⟨some "magic", none⟩⟩, none⟩)).copy_current_bot_history
          [(some "hi", "")],
        [(some "hi", "")] ++ [(none,
          "GPT attempted to call a function that does not exist: " ++
            nameDelta ⟨⟨none, none, some ⟨some "magic", none⟩⟩, none⟩ ++ "\n ")],
        true) :=
  (c8_nonexistent_function sampleEnv ⟨⟨none, none, some ⟨some "magic", none⟩⟩, none⟩
    sampleBackend0 [(some "hi", "")] false).1 (by decide)

/-- Witness for C10 at an empty and a singleton `choices` list. -/
theorem c10_witness :
    parse_response sampleEnv ⟨[]⟩ [(some "hi", "")] sampleBackend0 =
      .ok (sampleBackend0, [(some "hi", "")], false) ∧
    parse_response sampleEnv ⟨[⟨⟨none, none, none⟩, none⟩]⟩ [(some "hi", "")] sampleBackend0 =
      ChoiceHandler.handle sampleEnv ⟨⟨none, none, none⟩, none⟩ sampleBackend0
        [(some "hi", "")] false :=
  ⟨(c10_parse_response_choices sampleEnv).1 ⟨[]⟩ [(some "hi", "")] sampleBackend0 rfl,
   (c10_parse_response_choices sampleEnv).2 ⟨[⟨⟨none, none, none⟩, none⟩]⟩
     ⟨⟨none, none, none⟩, none⟩ [] [(some "hi", "")] sampleBackend0 rfl⟩

end ResponseParser
